import Mathlib

/-!
Shallow embedding of `src/zerodha_bot/trading_bot.py` (the trading loop engine).

Modelling conventions:
* Money and prices are rationals (`ℚ`); the Python source uses floats, and every
  claim under study is about comparison/formula structure, not float rounding.
* Times of day are seconds since midnight (IST), `ℕ`; `datetime.time(9, 30)`
  becomes `9*3600 + 30*60`, and Python's `<=` on `datetime.time` is `≤` on `ℕ`.
* Each external call that can raise is modelled by a field of `CycleEnv`
  recording, for this cycle, whether the call succeeds and with what value:
  `kite.margins`, `kite.ltp` (separately for the entry scan and the exit scan,
  since the two scans call `ltp` again), `place_market_order`, and the
  `log_trade` journal append (which can raise `IOError`).
* The engine's observable activity is an `Action` trace: an `Action.buy`/
  `Action.sell` is recorded when `place_market_order` is called, with `ok`
  telling whether the call returned an order id (`true`) or raised (`false`);
  `Action.journal` is recorded when `log_trade` succeeds.
* `open_trades` (the Position Book) is an association list `Book`, mirroring a
  Python dict built only by key-guarded insertion and `pop`.
-/

namespace TB

abbrev Sym := String

/-- `PROFIT_TARGET = 0.02` (trading_bot.py line 21). -/
def PROFIT_TARGET : ℚ := 2 / 100

/-- `STOP_LOSS = 0.01` (trading_bot.py line 22). -/
def STOP_LOSS : ℚ := 1 / 100

/-- `datetime.time(9, 30)` as seconds since midnight. -/
def marketOpenSec : ℕ := 9 * 3600 + 30 * 60

/-- `datetime.time(15, 15)` as seconds since midnight. -/
def marketCloseSec : ℕ := 15 * 3600 + 15 * 60

/-- `datetime.time(15, 10)`, the forced-exit cutoff, as seconds since midnight. -/
def forcedExitCutoff : ℕ := 15 * 3600 + 10 * 60

/-- The in-window test `datetime.time(9, 30) <= current_time <= datetime.time(15, 15)`
(line 120). -/
def inWindow (now : ℕ) : Bool :=
  decide (marketOpenSec ≤ now ∧ now ≤ marketCloseSec)

/-- The value stored in `open_trades[symbol]` (lines 158-163). -/
structure TradeInfo where
  quantity : ℤ
  buy_price : ℚ
  target : ℚ
  stop : ℚ
deriving DecidableEq, Repr

/-- The Position Book `open_trades`: a dict keyed by symbol. -/
abbrev Book := List (Sym × TradeInfo)

/-- Dict lookup `open_trades.get(symbol)`. -/
def lookupB : Book → Sym → Option TradeInfo
  | [], _ => none
  | (t, i) :: rest, s => if t = s then some i else lookupB rest s

/-- Dict removal `open_trades.pop(symbol, None)`. -/
def removeKey (book : Book) (s : Sym) : Book :=
  book.filter (fun p => p.1 ≠ s)

/-- The keys of the Position Book. -/
def keysOf (book : Book) : List Sym := book.map Prod.fst

/-- One observable engine action: an order-placement attempt (`ok` = the broker
call returned rather than raised) or a successful journal append by `log_trade`. -/
inductive Action where
  | buy (symbol : Sym) (qty : ℤ) (ok : Bool)
  | sell (symbol : Sym) (qty : ℤ) (ok : Bool)
  | journal (act : String) (symbol : Sym) (qty : ℤ) (price : ℚ)
deriving DecidableEq, Repr

/-- The symbol an action concerns. -/
def Action.sym : Action → Sym
  | .buy s _ _ => s
  | .sell s _ _ => s
  | .journal _ s _ _ => s

/-- Contents of a JSON store file: `none` = file does not exist,
`some none` = file exists but fails to parse, `some (some stocks)` = parsed
`"stocks"` list. -/
abbrev Store := Option (Option (List String))

/-- Python `str.strip()`: drop leading and trailing whitespace (modelled at the
character-list level so that it computes by structural recursion). -/
def stripString (s : String) : String :=
  String.mk (((s.data.dropWhile Char.isWhitespace).reverse.dropWhile
    Char.isWhitespace).reverse)

/-- Python `str.upper()` (ASCII uppercasing, the case exercised here). -/
def upperString (s : String) : String :=
  String.mk (s.data.map Char.toUpper)

/-- `symbol.strip().upper()` with the truthiness filter of lines 48 and 60:
an entry contributes iff its stripped form is non-empty. -/
def normalizeSymbol (s : String) : Option Sym :=
  let t := stripString s
  if t = "" then none else some (upperString t)

/-- Code-point lexicographic `<=` on strings, as Python compares `str` values
(structurally recursive so that it computes). -/
def lexLe : List Char → List Char → Bool
  | [], _ => true
  | _ :: _, [] => false
  | a :: as, b :: bs => if a < b then true else if a = b then lexLe as bs else false

/-- Ascending insertion of one symbol, the helper of `sortSyms`. -/
def orderedInsertB (x : Sym) : List Sym → List Sym
  | [] => [x]
  | y :: ys => if lexLe x.data y.data then x :: y :: ys else y :: orderedInsertB x ys

/-- Python `sorted` on a list of symbols (ascending, stable insertion sort). -/
def sortSyms : List Sym → List Sym
  | [] => []
  | x :: xs => orderedInsertB x (sortSyms xs)

/-- `load_predictions` (lines 35-49): missing file or parse failure yield `[]`;
otherwise strip/upper-normalize, drop empties, deduplicate and sort. -/
def load_predictions (store : Store) : List Sym :=
  match store with
  | none => []
  | some none => []
  | some (some stocks) => sortSyms ((stocks.filterMap normalizeSymbol).dedup)

/-- `load_excluded_stocks` (lines 52-63): missing file or parse failure yield the
empty set; otherwise the normalized symbols (as a duplicate-free list). -/
def load_excluded_stocks (store : Store) : List Sym :=
  match store with
  | none => []
  | some none => []
  | some (some stocks) => (stocks.filterMap normalizeSymbol).dedup

/-- Per-cycle outcomes of the external world: clock, broker responses, journal
storage health, and the exclusion-store contents during this cycle (which the
external control interface may have changed since engine start). -/
structure CycleEnv where
  now : ℕ
  marginsNet : Except Unit (Option ℚ)
  entryPrice : Sym → Except Unit ℚ
  buyOrderOk : Sym → Bool
  journalBuyOk : Sym → Bool
  exitPrice : Sym → Except Unit ℚ
  sellOrderOk : Sym → Bool
  journalSellOk : Sym → Bool
  excludeStore : Store

/-- `wallet = float(margins.get("net", 0.0) or 0.0)` with the surrounding
`try/except` (lines 121-126): a raised exception, a missing `"net"` key, and a
`None` value all coerce to `0.0`; `or 0.0` maps a zero balance to `0.0` itself. -/
def walletFromMargins : Except Unit (Option ℚ) → ℚ
  | .error _ => 0
  | .ok none => 0
  | .ok (some v) => if v = 0 then 0 else v

/-- The entry evaluation of one candidate symbol (lines 128-166), returning the
updated book, the updated running wallet, and the actions this symbol produced. -/
def entryOne (env : CycleEnv) (excluded : List Sym) (book : Book) (wallet : ℚ)
    (symbol : Sym) : Book × ℚ × List Action :=
  if symbol ∈ excluded ∨ (lookupB book symbol).isSome = true then
    (book, wallet, [])
  else
    match env.entryPrice symbol with
    | .error _ => (book, wallet, [])
    | .ok last_price =>
      if wallet < last_price ∨ last_price ≤ 0 then (book, wallet, [])
      else
        let qty : ℤ := ⌊wallet / last_price⌋
        if qty < 1 then (book, wallet, [])
        else
          if env.buyOrderOk symbol then
            if env.journalBuyOk symbol then
              (book ++ [(symbol,
                  { quantity := qty
                    buy_price := last_price
                    target := last_price * (1 + PROFIT_TARGET)
                    stop := last_price * (1 - STOP_LOSS) })],
               wallet - qty * last_price,
               [Action.buy symbol qty true,
                Action.journal "BUY" symbol qty last_price])
            else
              -- order placed, then `log_trade` raised: caught at line 165,
              -- so no position is inserted and the wallet is not decremented
              (book, wallet, [Action.buy symbol qty true])
          else
            -- `place_market_order` raised: caught at line 165
            (book, wallet, [Action.buy symbol qty false])

/-- Fold step of the entry scan: accumulate book, wallet and action trace. -/
def entryStep (env : CycleEnv) (excluded : List Sym)
    (acc : Book × ℚ × List Action) (symbol : Sym) : Book × ℚ × List Action :=
  let r := entryOne env excluded acc.1 acc.2.1 symbol
  (r.1, r.2.1, acc.2.2 ++ r.2.2)

/-- `should_exit` (line 181): `last_price >= target or last_price <= stop or
current_time >= datetime.time(15, 10)`. -/
def shouldExit (info : TradeInfo) (last_price : ℚ) (now : ℕ) : Bool :=
  decide (info.target ≤ last_price ∨ last_price ≤ info.stop ∨ forcedExitCutoff ≤ now)

/-- The exit evaluation of one open position (lines 168-198), returning the
updated book and the actions produced. Note that `open_trades.pop(symbol, None)`
at line 198 sits outside the `try/except`, so once an exit triggers the position
is removed whether or not the SELL placement or journal append succeeded. -/
def exitOne (env : CycleEnv) (book : Book) (item : Sym × TradeInfo) :
    Book × List Action :=
  match env.exitPrice item.1 with
  | .error _ => (book, [])
  | .ok last_price =>
    if shouldExit item.2 last_price env.now then
      if env.sellOrderOk item.1 then
        if env.journalSellOk item.1 then
          (removeKey book item.1,
           [Action.sell item.1 item.2.quantity true,
            Action.journal "SELL" item.1 item.2.quantity last_price])
        else
          (removeKey book item.1, [Action.sell item.1 item.2.quantity true])
      else
        (removeKey book item.1, [Action.sell item.1 item.2.quantity false])
    else (book, [])

/-- Fold step of the exit scan over the snapshot `list(open_trades.items())`. -/
def exitStep (env : CycleEnv) (acc : Book × List Action)
    (item : Sym × TradeInfo) : Book × List Action :=
  let r := exitOne env acc.1 item
  (r.1, acc.2 ++ r.2)

/-- One in-window pass of the loop body (lines 120-200): fetch the wallet, run
the entry scan over the prediction list, then the exit scan over a snapshot of
the book taken after the entry scan. Outside the window the cycle only sleeps. -/
def runCycle (env : CycleEnv) (symbols excluded : List Sym) (book : Book) :
    Book × List Action :=
  if inWindow env.now then
    let wallet := walletFromMargins env.marginsNet
    let r1 := symbols.foldl (entryStep env excluded) (book, wallet, [])
    let r2 := r1.1.foldl (exitStep env) (r1.1, [])
    (r2.1, r1.2.2 ++ r2.2)
  else (book, [])

/-- Fold step of the outer `while` loop: run one cycle from the accumulated
book, appending the cycle's actions to the run's trace. -/
def engineStep (symbols excluded : List Sym) (acc : Book × List Action)
    (env : CycleEnv) : Book × List Action :=
  let r := runCycle env symbols excluded acc.1
  (r.1, acc.2 ++ r.2)

/-- The engine run from an empty Position Book over a sequence of cycles, with
the symbol and exclusion lists fixed for the whole run (as `run_trading_loop`
fixes them before entering the loop, lines 106-108). -/
def runEngine (symbols excluded : List Sym) (envs : List CycleEnv) :
    Book × List Action :=
  envs.foldl (engineStep symbols excluded) ([], [])

/-- `run_trading_loop` (lines 105-206): `load_predictions()` and
`load_excluded_stocks()` are each called once, before the loop; the per-cycle
contents of the exclusion store (`CycleEnv.excludeStore`) are never consulted. -/
def run_trading_loop (predStore exclStoreAtStart : Store)
    (envs : List CycleEnv) : Book × List Action :=
  runEngine (load_predictions predStore) (load_excluded_stocks exclStoreAtStart) envs

/-- A position record is well formed when its target and stop carry the 2% / 1%
formulas the entry path computes from the fill price. -/
def WFinfo (i : TradeInfo) : Prop :=
  i.target = i.buy_price * (1 + PROFIT_TARGET) ∧
    i.stop = i.buy_price * (1 - STOP_LOSS)

/-- Every position in the book is well formed. -/
def WFbook (b : Book) : Prop := ∀ p ∈ b, WFinfo p.2

theorem lookupB_eq_none_iff (b : Book) (s : Sym) :
    lookupB b s = none ↔ s ∉ keysOf b := by
  induction b with
  | nil => simp [lookupB, keysOf]
  | cons p rest ih =>
    obtain ⟨t, i⟩ := p
    simp only [keysOf, List.map_cons, List.mem_cons] at *
    by_cases h : t = s
    · subst h
      simp [lookupB]
    · rw [lookupB, if_neg h, ih]
      constructor
      · rintro hn (rfl | hm)
        · exact h rfl
        · exact hn hm
      · intro hn hm
        exact hn (Or.inr hm)

theorem lookupB_append_of_none {b : Book} {s : Sym} (c : Book)
    (h : lookupB b s = none) : lookupB (b ++ c) s = lookupB c s := by
  induction b with
  | nil => simp
  | cons p rest ih =>
    obtain ⟨t, i⟩ := p
    by_cases ht : t = s
    · simp [lookupB, ht] at h
    · simp only [lookupB, if_neg ht] at h ⊢
      exact ih h

theorem removeKey_sublist (b : Book) (s : Sym) :
    List.Sublist (removeKey b s) b :=
  List.filter_sublist b

theorem mem_of_mem_removeKey {b : Book} {s : Sym} {p : Sym × TradeInfo}
    (h : p ∈ removeKey b s) : p ∈ b :=
  (removeKey_sublist b s).mem h

theorem lookupB_removeKey_of_none {b : Book} {s x : Sym}
    (h : lookupB b s = none) : lookupB (removeKey b x) s = none := by
  rw [lookupB_eq_none_iff] at h ⊢
  intro hmem
  exact h (((removeKey_sublist b x).map Prod.fst).mem hmem)

theorem keysOf_append_single (b : Book) (s : Sym) (i : TradeInfo) :
    keysOf (b ++ [(s, i)]) = keysOf b ++ [s] := by
  simp [keysOf]

/-- Full characterization of what one entry evaluation does to the book and
wallet: either both are untouched, or (the symbol was not excluded and had no
open position, a price was fetched, the affordability and quantity guards
passed, the BUY placement returned and the journal append succeeded) and the
position is appended with the 2%/1% target/stop and the wallet is decremented
by `quantity × last_price`. -/
theorem entryOne_shape (env : CycleEnv) (excl : List Sym) (b : Book) (w : ℚ)
    (s : Sym) :
    ((entryOne env excl b w s).1 = b ∧ (entryOne env excl b w s).2.1 = w) ∨
    (lookupB b s = none ∧ env.buyOrderOk s = true ∧ env.journalBuyOk s = true ∧
      ∃ p, env.entryPrice s = Except.ok p ∧
        (entryOne env excl b w s).1 = b ++ [(s,
          { quantity := ⌊w / p⌋, buy_price := p,
            target := p * (1 + PROFIT_TARGET),
            stop := p * (1 - STOP_LOSS) })] ∧
        (entryOne env excl b w s).2.1 = w - ⌊w / p⌋ * p) := by
  unfold entryOne
  dsimp only
  split
  · exact Or.inl ⟨rfl, rfl⟩
  rename_i hskip
  push_neg at hskip
  split
  · exact Or.inl ⟨rfl, rfl⟩
  rename_i p hp
  split
  · exact Or.inl ⟨rfl, rfl⟩
  split
  · exact Or.inl ⟨rfl, rfl⟩
  split
  · rename_i hbuy
    split
    · rename_i hjour
      refine Or.inr ⟨?_, hbuy, hjour, p, hp, rfl, rfl⟩
      exact Option.not_isSome_iff_eq_none.mp hskip.2
    · exact Or.inl ⟨rfl, rfl⟩
  · exact Or.inl ⟨rfl, rfl⟩

/-- Every action an entry evaluation emits concerns the evaluated symbol. -/
theorem entryOne_acts_sym (env : CycleEnv) (excl : List Sym) (b : Book) (w : ℚ)
    (s : Sym) : ∀ a ∈ (entryOne env excl b w s).2.2, a.sym = s := by
  unfold entryOne
  dsimp only
  split
  · simp
  split
  · simp
  split
  · simp
  split
  · simp
  split
  · split <;> simp [Action.sym]
  · simp [Action.sym]

/-- Skipping an excluded symbol changes nothing and emits nothing (line 129). -/
theorem entryOne_excluded (env : CycleEnv) {excl : List Sym} (b : Book) (w : ℚ)
    {s : Sym} (hs : s ∈ excl) : entryOne env excl b w s = (b, w, []) := by
  unfold entryOne
  rw [if_pos (Or.inl hs)]

/-- Skipping a symbol with an open position changes nothing and emits nothing
(line 129). -/
theorem entryOne_open (env : CycleEnv) (excl : List Sym) (b : Book) (w : ℚ)
    {s : Sym} (hs : (lookupB b s).isSome = true) :
    entryOne env excl b w s = (b, w, []) := by
  unfold entryOne
  rw [if_pos (Or.inr hs)]

/-- With a zero wallet every candidate is skipped at the affordability guard
(line 140-141). -/
theorem entryOne_zero_wallet (env : CycleEnv) (excl : List Sym) (b : Book)
    (s : Sym) : entryOne env excl b 0 s = (b, 0, []) := by
  unfold entryOne
  split
  · rfl
  · split
    · rfl
    next p _ =>
      rw [if_pos]
      rcases lt_or_le 0 p with h | h
      · exact Or.inl h
      · exact Or.inr h

/-- One exit evaluation either keeps the book intact or removes exactly the
evaluated symbol's key. -/
theorem exitOne_shape (env : CycleEnv) (b : Book) (it : Sym × TradeInfo) :
    (exitOne env b it).1 = b ∨ (exitOne env b it).1 = removeKey b it.1 := by
  unfold exitOne
  split
  · exact Or.inl rfl
  · split
    · split
      · split
        · exact Or.inr rfl
        · exact Or.inr rfl
      · exact Or.inr rfl
    · exact Or.inl rfl

/-- The exit path never places BUY orders. -/
theorem exitOne_no_buy (env : CycleEnv) (b : Book) (it : Sym × TradeInfo)
    (s : Sym) (q : ℤ) (ok : Bool) :
    Action.buy s q ok ∉ (exitOne env b it).2 := by
  unfold exitOne
  split
  · simp
  · split
    · split
      · split
        · simp
        · simp
      · simp
    · simp

theorem lookupB_cons_of_ne {t s : Sym} (h : t ≠ s) (i : TradeInfo) (b : Book) :
    lookupB ((t, i) :: b) s = lookupB b s := by
  rw [lookupB, if_neg h]

/-- An excluded symbol's absence from the book survives the whole entry scan. -/
theorem entry_fold_none {env : CycleEnv} {excl : List Sym} {s : Sym}
    (hs : s ∈ excl) :
    ∀ (syms : List Sym) (b : Book) (w : ℚ) (acts : List Action),
      lookupB b s = none →
      lookupB ((syms.foldl (entryStep env excl) (b, w, acts)).1) s = none := by
  intro syms
  induction syms with
  | nil => intro b w acts h; exact h
  | cons t rest ih =>
    intro b w acts h
    rw [List.foldl_cons]
    by_cases hts : t = s
    · subst hts
      rw [show entryStep env excl (b, w, acts) t = (b, w, acts ++ []) from by
        rw [entryStep, entryOne_excluded env b w hs]]
      exact ih b w (acts ++ []) h
    · rcases entryOne_shape env excl b w t with ⟨hb, _⟩ | ⟨_, _, _, p, _, hb, _⟩
      · refine ih _ _ _ ?_
        rw [hb]
        exact h
      · refine ih _ _ _ ?_
        rw [hb, lookupB_append_of_none _ h, lookupB_cons_of_ne hts]
        rfl

/-- An entry scan never emits a BUY for an excluded symbol. -/
theorem entry_fold_no_buy {env : CycleEnv} {excl : List Sym} {s : Sym}
    (hs : s ∈ excl) :
    ∀ (syms : List Sym) (b : Book) (w : ℚ) (acts : List Action),
      (∀ a ∈ acts, ∀ q ok, a ≠ Action.buy s q ok) →
      ∀ a ∈ (syms.foldl (entryStep env excl) (b, w, acts)).2.2,
        ∀ q ok, a ≠ Action.buy s q ok := by
  intro syms
  induction syms with
  | nil => intro b w acts h; exact h
  | cons t rest ih =>
    intro b w acts h
    rw [List.foldl_cons]
    refine ih _ _ _ ?_
    intro a ha q ok
    rcases List.mem_append.mp ha with h1 | h2
    · exact h a h1 q ok
    · by_cases hts : t = s
      · subst hts
        rw [entryOne_excluded env b w hs] at h2
        exact absurd h2 (List.not_mem_nil a)
      · intro hEq
        have := entryOne_acts_sym env excl b w t a h2
        rw [hEq] at this
        exact hts this.symm

/-- The exit scan preserves absence of a symbol from the book. -/
theorem exit_fold_none {env : CycleEnv} {s : Sym} :
    ∀ (items : List (Sym × TradeInfo)) (b : Book) (acts : List Action),
      lookupB b s = none →
      lookupB ((items.foldl (exitStep env) (b, acts)).1) s = none := by
  intro items
  induction items with
  | nil => intro b acts h; exact h
  | cons it rest ih =>
    intro b acts h
    rw [List.foldl_cons]
    rcases exitOne_shape env b it with hb | hb
    · refine ih _ _ ?_
      rw [hb]
      exact h
    · refine ih _ _ ?_
      rw [hb]
      exact lookupB_removeKey_of_none h

/-- The exit scan emits no BUY action at all. -/
theorem exit_fold_no_buy {env : CycleEnv} :
    ∀ (items : List (Sym × TradeInfo)) (b : Book) (acts : List Action),
      (∀ a ∈ acts, ∀ (s : Sym) (q : ℤ) (ok : Bool), a ≠ Action.buy s q ok) →
      ∀ a ∈ (items.foldl (exitStep env) (b, acts)).2,
        ∀ (s : Sym) (q : ℤ) (ok : Bool), a ≠ Action.buy s q ok := by
  intro items
  induction items with
  | nil => intro b acts h; exact h
  | cons it rest ih =>
    intro b acts h
    rw [List.foldl_cons]
    refine ih _ _ ?_
    intro a ha s q ok hEq
    rcases List.mem_append.mp ha with h1 | h2
    · exact h a h1 s q ok hEq
    · rw [hEq] at h2
      exact exitOne_no_buy env b it s q ok h2

/-- Books only shrink across the exit scan (pointwise membership). -/
theorem exit_fold_mem_sub {env : CycleEnv} :
    ∀ (items : List (Sym × TradeInfo)) (b : Book) (acts : List Action)
      (p : Sym × TradeInfo),
      p ∈ (items.foldl (exitStep env) (b, acts)).1 → p ∈ b := by
  intro items
  induction items with
  | nil => intro b acts p h; exact h
  | cons it rest ih =>
    intro b acts p h
    rw [List.foldl_cons] at h
    have := ih _ _ _ h
    rcases exitOne_shape env b it with hb | hb
    · exact hb ▸ this
    · exact mem_of_mem_removeKey (hb ▸ this)

/-- The entry scan preserves well-formedness of every position. -/
theorem entry_fold_WF {env : CycleEnv} {excl : List Sym} :
    ∀ (syms : List Sym) (b : Book) (w : ℚ) (acts : List Action),
      WFbook b → WFbook ((syms.foldl (entryStep env excl) (b, w, acts)).1) := by
  intro syms
  induction syms with
  | nil => intro b w acts h; exact h
  | cons t rest ih =>
    intro b w acts h
    rw [List.foldl_cons]
    refine ih _ _ _ ?_
    rcases entryOne_shape env excl b w t with ⟨hb, _⟩ | ⟨_, _, _, p, _, hb, _⟩
    · rw [hb]
      exact h
    · rw [hb]
      intro q hq
      rcases List.mem_append.mp hq with h1 | h2
      · exact h q h1
      · rcases List.mem_singleton.mp h2 with rfl
        exact ⟨rfl, rfl⟩

/-- The entry scan preserves key uniqueness of the book. -/
theorem entry_fold_nodup {env : CycleEnv} {excl : List Sym} :
    ∀ (syms : List Sym) (b : Book) (w : ℚ) (acts : List Action),
      (keysOf b).Nodup →
      (keysOf ((syms.foldl (entryStep env excl) (b, w, acts)).1)).Nodup := by
  intro syms
  induction syms with
  | nil => intro b w acts h; exact h
  | cons t rest ih =>
    intro b w acts h
    rw [List.foldl_cons]
    refine ih _ _ _ ?_
    rcases entryOne_shape env excl b w t with ⟨hb, _⟩ | ⟨hnone, _, _, p, _, hb, _⟩
    · rw [hb]
      exact h
    · rw [hb, keysOf_append_single]
      rw [List.nodup_append]
      refine ⟨h, List.nodup_singleton t, ?_⟩
      rw [List.disjoint_singleton]
      exact (lookupB_eq_none_iff b t).mp hnone

/-- The exit scan preserves key uniqueness of the book. -/
theorem exit_fold_nodup {env : CycleEnv} :
    ∀ (items : List (Sym × TradeInfo)) (b : Book) (acts : List Action),
      (keysOf b).Nodup →
      (keysOf ((items.foldl (exitStep env) (b, acts)).1)).Nodup := by
  intro items
  induction items with
  | nil => intro b acts h; exact h
  | cons it rest ih =>
    intro b acts h
    rw [List.foldl_cons]
    refine ih _ _ ?_
    rcases exitOne_shape env b it with hb | hb
    · rw [hb]
      exact h
    · rw [hb]
      exact ((removeKey_sublist b it.1).map Prod.fst).nodup h

/-- Over one full cycle, an excluded symbol absent from the book stays absent
and no BUY for it is ever emitted. -/
theorem runCycle_none_nobuy {symbols excl : List Sym} {s : Sym} (hs : s ∈ excl)
    (env : CycleEnv) {b : Book} (hb : lookupB b s = none) :
    lookupB (runCycle env symbols excl b).1 s = none ∧
      ∀ a ∈ (runCycle env symbols excl b).2, ∀ q ok, a ≠ Action.buy s q ok := by
  unfold runCycle
  split
  · dsimp only
    constructor
    · exact exit_fold_none _ _ _ (entry_fold_none hs symbols b _ [] hb)
    · intro a ha
      rcases List.mem_append.mp ha with h1 | h2
      · exact entry_fold_no_buy hs symbols b _ []
          (by intro a h; exact absurd h (List.not_mem_nil a)) a h1
      · intro q ok
        exact exit_fold_no_buy _ _ []
          (by intro a h; exact absurd h (List.not_mem_nil a)) a h2 s q ok
  · exact ⟨hb, by intro a ha; exact absurd ha (List.not_mem_nil a)⟩

/-- One full cycle keeps every position well formed. -/
theorem runCycle_WF {symbols excl : List Sym} (env : CycleEnv) {b : Book}
    (h : WFbook b) : WFbook (runCycle env symbols excl b).1 := by
  unfold runCycle
  split
  · dsimp only
    intro p hp
    exact entry_fold_WF symbols b _ [] h p (exit_fold_mem_sub _ _ _ p hp)
  · exact h

/-- One full cycle keeps the book's keys duplicate-free. -/
theorem runCycle_nodup {symbols excl : List Sym} (env : CycleEnv) {b : Book}
    (h : (keysOf b).Nodup) : (keysOf (runCycle env symbols excl b).1).Nodup := by
  unfold runCycle
  split
  · dsimp only
    exact exit_fold_nodup _ _ _ (entry_fold_nodup symbols b _ [] h)
  · exact h

/-- A book invariant preserved by every cycle holds over any engine run. -/
theorem engine_fold_book {symbols excluded : List Sym} (P : Book → Prop)
    (hcycle : ∀ env b, P b → P (runCycle env symbols excluded b).1) :
    ∀ (envs : List CycleEnv) (acc : Book × List Action),
      P acc.1 → P ((envs.foldl (engineStep symbols excluded) acc)).1 := by
  intro envs
  induction envs with
  | nil => intro acc h; exact h
  | cons e rest ih =>
    intro acc h
    rw [List.foldl_cons]
    exact ih _ (hcycle e acc.1 h)

/-- A book invariant together with a per-action predicate, both preserved by
every cycle, hold over any engine run. -/
theorem engine_fold_trace {symbols excluded : List Sym} (P : Book → Prop)
    (Q : Action → Prop)
    (hcycle : ∀ env b, P b → P (runCycle env symbols excluded b).1)
    (hacts : ∀ env b, P b → ∀ a ∈ (runCycle env symbols excluded b).2, Q a) :
    ∀ (envs : List CycleEnv) (acc : Book × List Action),
      P acc.1 → (∀ a ∈ acc.2, Q a) →
      P ((envs.foldl (engineStep symbols excluded) acc)).1 ∧
        ∀ a ∈ ((envs.foldl (engineStep symbols excluded) acc)).2, Q a := by
  intro envs
  induction envs with
  | nil => intro acc h1 h2; exact ⟨h1, h2⟩
  | cons e rest ih =>
    intro acc h1 h2
    rw [List.foldl_cons]
    refine ih _ (hcycle e acc.1 h1) ?_
    intro a ha
    have ha' : a ∈ acc.2 ++ (runCycle e symbols excluded acc.1).2 := ha
    rcases List.mem_append.mp ha' with h | h
    · exact h2 a h
    · exact hacts e acc.1 h1 a h

/-- Every position ever held by the engine carries the 2%/1% target/stop
formulas computed from its fill price. -/
theorem runEngine_WF (symbols excluded : List Sym) (envs : List CycleEnv) :
    WFbook (runEngine symbols excluded envs).1 :=
  engine_fold_book WFbook (fun env _ h => runCycle_WF env h) envs ([], [])
    (by intro p hp; exact absurd hp (List.not_mem_nil p))

/-- With a zero wallet the whole entry scan is a no-op. -/
theorem entry_fold_zero (env : CycleEnv) (excl : List Sym) :
    ∀ (syms : List Sym) (b : Book) (acts : List Action),
      syms.foldl (entryStep env excl) (b, 0, acts) = (b, 0, acts) := by
  intro syms
  induction syms with
  | nil => intro b acts; rfl
  | cons t rest ih =>
    intro b acts
    rw [List.foldl_cons]
    have hstep : entryStep env excl (b, 0, acts) t = (b, 0, acts) := by
      unfold entryStep
      rw [entryOne_zero_wallet]
      dsimp only
      rw [List.append_nil]
    rw [hstep]
    exact ih b acts

/-- C5: for every open position with entry price p, the engine issues a SELL
exactly when the fetched last price is `>= p*(1+0.02)`, or `<= p*(1-0.01)`, or
the current time has reached the forced-exit cutoff — and never under any other
condition; both price comparisons are inclusive. -/
theorem sell_iff_target_stop_or_cutoff (symbols excluded : List Sym)
    (envs : List CycleEnv) (s : Sym) (info : TradeInfo)
    (hmem : (s, info) ∈ (runEngine symbols excluded envs).1)
    (env : CycleEnv) (b : Book) :
    (∃ ok, Action.sell s info.quantity ok ∈ (exitOne env b (s, info)).2) ↔
      ∃ price, env.exitPrice s = Except.ok price ∧
        (info.buy_price * (1 + PROFIT_TARGET) ≤ price ∨
          price ≤ info.buy_price * (1 - STOP_LOSS) ∨
          forcedExitCutoff ≤ env.now) := by
  obtain ⟨ht, hstp⟩ := runEngine_WF symbols excluded envs (s, info) hmem
  unfold exitOne
  dsimp only
  split
  · rename_i u herr
    constructor
    · rintro ⟨ok, hmem2⟩
      exact absurd hmem2 (List.not_mem_nil _)
    · rintro ⟨price, hp, -⟩
      rw [hp] at herr
      simp at herr
  · rename_i price hp
    by_cases hex : shouldExit info price env.now = true
    · rw [if_pos hex]
      unfold shouldExit at hex
      have hcond := of_decide_eq_true hex
      rw [ht, hstp] at hcond
      constructor
      · intro _
        exact ⟨price, hp, hcond⟩
      · intro _
        split
        · split
          · exact ⟨true, by simp⟩
          · exact ⟨true, by simp⟩
        · exact ⟨false, by simp⟩
    · rw [if_neg hex]
      constructor
      · rintro ⟨ok, hmem2⟩
        exact absurd hmem2 (List.not_mem_nil _)
      · rintro ⟨price', hp', hcond⟩
        rw [hp] at hp'
        injection hp' with hpe
        subst hpe
        refine absurd ?_ hex
        unfold shouldExit
        apply decide_eq_true
        rw [ht, hstp]
        exact hcond

/-- C8: a symbol in the engine's Exclusion Set never receives a BUY order and
never acquires a Position, whatever the prediction list, capital and cycle
outcomes. -/
theorem excluded_symbol_never_entered (symbols excluded : List Sym)
    (envs : List CycleEnv) (s : Sym) (hs : s ∈ excluded) :
    lookupB (runEngine symbols excluded envs).1 s = none ∧
      ∀ q ok, Action.buy s q ok ∉ (runEngine symbols excluded envs).2 := by
  have h := @engine_fold_trace symbols excluded
    (fun b => lookupB b s = none)
    (fun a => ∀ q ok, a ≠ Action.buy s q ok)
    (fun env _ hb => (runCycle_none_nobuy hs env hb).1)
    (fun env _ hb => (runCycle_none_nobuy hs env hb).2)
    envs ([], []) rfl (by intro a ha; exact absurd ha (List.not_mem_nil a))
  refine ⟨h.1, ?_⟩
  intro q ok hmem
  exact h.2 _ hmem q ok rfl

/-- C9: the Position Book never holds two positions for one symbol (its keys
are duplicate-free in every reachable state), and an entry evaluation for a
symbol with an open position is a strict no-op. -/
theorem at_most_one_position_per_symbol (symbols excluded : List Sym)
    (envs : List CycleEnv) :
    (keysOf (runEngine symbols excluded envs).1).Nodup ∧
      ∀ (env : CycleEnv) (excl : List Sym) (b : Book) (w : ℚ) (s : Sym),
        (lookupB b s).isSome = true → entryOne env excl b w s = (b, w, []) := by
  constructor
  · exact @engine_fold_book symbols excluded (fun b => (keysOf b).Nodup)
      (fun env _ h => runCycle_nodup env h) envs ([], [])
      (by simp [keysOf])
  · intro env excl b w s hs
    exact entryOne_open env excl b w hs

/-- C7: when an entry evaluation reaches the sizing step with
`wallet >= last_price > 0`, the computed quantity is `⌊wallet / last_price⌋`,
it is at least 1, and the BUY attempt requests exactly that quantity. -/
theorem quantity_floor_sizing (env : CycleEnv) (excluded : List Sym) (b : Book)
    (w p : ℚ) (s : Sym) (hexcl : s ∉ excluded) (hopen : lookupB b s = none)
    (hp : env.entryPrice s = Except.ok p) (hw : p ≤ w) (hpos : 0 < p) :
    1 ≤ ⌊w / p⌋ ∧
      ∃ rest, (entryOne env excluded b w s).2.2 =
        Action.buy s ⌊w / p⌋ (env.buyOrderOk s) :: rest := by
  have hq : (1 : ℤ) ≤ ⌊w / p⌋ := by
    rw [Int.le_floor]
    have h1 : (1 : ℚ) ≤ w / p := by
      rw [le_div_iff₀ hpos, one_mul]
      exact hw
    exact_mod_cast h1
  refine ⟨hq, ?_⟩
  unfold entryOne
  rw [if_neg, hp]
  · dsimp only
    rw [if_neg, if_neg (not_lt.mpr hq)]
    · cases hbo : env.buyOrderOk s
      · rw [if_neg]
        · exact ⟨[], rfl⟩
        · exact Bool.false_ne_true
      · rw [if_pos rfl]
        cases hj : env.journalBuyOk s
        · rw [if_neg]
          · exact ⟨[], rfl⟩
          · exact Bool.false_ne_true
        · rw [if_pos rfl]
          exact ⟨[Action.journal "BUY" s ⌊w / p⌋ p], rfl⟩
    · push_neg
      exact ⟨hw, hpos⟩
  · push_neg
    refine ⟨hexcl, ?_⟩
    rw [hopen]
    exact Bool.false_ne_true

/-- C10: a failed balance query (and a missing or null `"net"`) coerces the
cycle wallet to 0; in such an in-window cycle the entry scan does nothing and
the cycle reduces to the exit scan over the existing book. -/
theorem margins_failure_zero_wallet :
    (walletFromMargins (Except.error ()) = 0 ∧
        walletFromMargins (Except.ok none) = 0) ∧
      ∀ (env : CycleEnv) (symbols excluded : List Sym) (b : Book),
        env.marginsNet = Except.error () → inWindow env.now = true →
        runCycle env symbols excluded b = b.foldl (exitStep env) (b, []) := by
  refine ⟨⟨rfl, rfl⟩, ?_⟩
  intro env symbols excluded b hm hw
  unfold runCycle
  rw [if_pos hw, hm]
  have h0 : walletFromMargins (Except.error ()) = (0 : ℚ) := rfl
  dsimp only
  rw [h0, entry_fold_zero]
  rfl

/-- C1 (amended): once an exit triggers and the exit-scan price fetch
succeeded, the position is removed from the Position Book whether or not the
SELL placement succeeds (`open_trades.pop` at line 198 is outside the
`try/except`); on a failed placement the cycle still records only the failed
attempt. -/
theorem exit_removes_position_regardless (env : CycleEnv) (b : Book) (s : Sym)
    (info : TradeInfo) (price : ℚ) (hp : env.exitPrice s = Except.ok price)
    (hx : shouldExit info price env.now = true) :
    (exitOne env b (s, info)).1 = removeKey b s ∧
      (env.sellOrderOk s = false →
        (exitOne env b (s, info)).2 = [Action.sell s info.quantity false]) := by
  unfold exitOne
  dsimp only
  rw [hp]
  dsimp only
  rw [if_pos hx]
  constructor
  · split
    · split
      · rfl
      · rfl
    · rfl
  · intro hsell
    rw [hsell]
    rfl

/-- C2 (amended): a journal-append failure after a successful BUY placement is
caught by the surrounding handler (line 165): the book and wallet are left
unchanged — the placed order is never recorded as a position — and the entry
scan proceeds to the remaining candidates instead of propagating the error. -/
theorem journal_failure_caught_cycle_continues (env : CycleEnv)
    (excluded : List Sym) (b : Book) (w : ℚ) (acts : List Action) (s : Sym)
    (rest : List Sym) (hj : env.journalBuyOk s = false) :
    (entryOne env excluded b w s).1 = b ∧
      (entryOne env excluded b w s).2.1 = w ∧
      (s :: rest).foldl (entryStep env excluded) (b, w, acts) =
        rest.foldl (entryStep env excluded)
          (b, w, acts ++ (entryOne env excluded b w s).2.2) := by
  have hbw : (entryOne env excluded b w s).1 = b ∧
      (entryOne env excluded b w s).2.1 = w := by
    rcases entryOne_shape env excluded b w s with h | ⟨_, _, hj2, _⟩
    · exact h
    · rw [hj] at hj2
      exact Bool.noConfusion hj2
  refine ⟨hbw.1, hbw.2, ?_⟩
  rw [List.foldl_cons]
  congr 1
  unfold entryStep
  dsimp only
  rw [hbw.1, hbw.2]

/-- C4 (amended): a Position is inserted iff the BUY placement succeeds AND
the subsequent journal append succeeds; when the placement fails or the journal
append fails (or the symbol is skipped), no Position is created and the running
wallet is not decremented. -/
theorem position_insert_iff_buy_and_journal (env : CycleEnv)
    (excluded : List Sym) (b : Book) (w : ℚ) (s : Sym) :
    ((env.buyOrderOk s = false ∨ env.journalBuyOk s = false) →
      (entryOne env excluded b w s).1 = b ∧
        (entryOne env excluded b w s).2.1 = w) ∧
    ((entryOne env excluded b w s).1 ≠ b →
      env.buyOrderOk s = true ∧ env.journalBuyOk s = true ∧
        ∃ info, (entryOne env excluded b w s).1 = b ++ [(s, info)] ∧
          (entryOne env excluded b w s).2.1 =
            w - info.quantity * info.buy_price) := by
  constructor
  · intro hfail
    rcases entryOne_shape env excluded b w s with h | ⟨_, hb2, hj2, _⟩
    · exact h
    · rcases hfail with hf | hf
      · rw [hf] at hb2
        exact Bool.noConfusion hb2
      · rw [hf] at hj2
        exact Bool.noConfusion hj2
  · intro hne
    rcases entryOne_shape env excluded b w s with ⟨h1, _⟩ |
      ⟨_, hb2, hj2, p, hp, hbook, hwal⟩
    · exact absurd h1 hne
    · exact ⟨hb2, hj2, _, hbook, hwal⟩

/-- Replacing every cycle's exclusion-store contents does not change the run:
the per-cycle store is never consulted by the engine. -/
theorem engine_map_store (symbols excluded : List Sym) (f : CycleEnv → Store) :
    ∀ (envs : List CycleEnv) (acc : Book × List Action),
      ((envs.map fun e => { e with excludeStore := f e }).foldl
          (engineStep symbols excluded) acc) =
        envs.foldl (engineStep symbols excluded) acc := by
  intro envs
  induction envs with
  | nil => intro acc; rfl
  | cons e rest ih =>
    intro acc
    rw [List.map_cons, List.foldl_cons, List.foldl_cons]
    rw [show engineStep symbols excluded acc { e with excludeStore := f e } =
        engineStep symbols excluded acc e from by cases e; rfl]
    exact ih _

/-- C3 (amended): `load_excluded_stocks` is called once before the loop
(line 107) and never re-read; the run is insensitive to any change of the
exclusion store's contents during later cycles, so a symbol added externally
after engine start is still entered. -/
theorem exclusion_store_never_reread (predStore exclStore : Store)
    (envs : List CycleEnv) (f : CycleEnv → Store) :
    run_trading_loop predStore exclStore
        (envs.map fun e => { e with excludeStore := f e }) =
      run_trading_loop predStore exclStore envs := by
  unfold run_trading_loop runEngine
  exact engine_map_store _ _ f envs ([], [])

/-- Concrete cycle: 10:00 IST, balance 1000, two candidates priced 400 and 700,
all placements and journal appends succeed, exit-scan quotes unavailable. -/
def envC6 : CycleEnv :=
  { now := 36000
    marginsNet := Except.ok (some 1000)
    entryPrice := fun s =>
      if s = "AAA" then Except.ok 400
      else if s = "BBB" then Except.ok 700
      else Except.error ()
    buyOrderOk := fun _ => true
    journalBuyOk := fun _ => true
    exitPrice := fun _ => Except.error ()
    sellOrderOk := fun _ => true
    journalSellOk := fun _ => true
    excludeStore := none }

/-- The position the entry scan of `envC6` opens for `"AAA"`. -/
def infoC6 : TradeInfo := ⟨2, 400, 408, 396⟩

/-- Concrete cycle: 15:11:40 IST (inside the window, past the forced-exit
cutoff), balance 1000, candidate priced 100; the SELL placement raises. -/
def envSellFail : CycleEnv :=
  { now := 54700
    marginsNet := Except.ok (some 1000)
    entryPrice := fun s => if s = "AAA" then Except.ok 100 else Except.error ()
    buyOrderOk := fun _ => true
    journalBuyOk := fun _ => true
    exitPrice := fun s => if s = "AAA" then Except.ok 100 else Except.error ()
    sellOrderOk := fun _ => false
    journalSellOk := fun _ => true
    excludeStore := none }

/-- The position the entry scan of `envSellFail` opens for `"AAA"`. -/
def infoSell : TradeInfo := ⟨10, 100, 102, 99⟩

/-- Concrete cycle: balance 100, candidates priced 10, the journal append for
`"AAA"` raises `IOError` while everything else succeeds. -/
def envJournalFail : CycleEnv :=
  { now := 36000
    marginsNet := Except.ok (some 100)
    entryPrice := fun s =>
      if s = "AAA" then Except.ok 10
      else if s = "BBB" then Except.ok 10
      else Except.error ()
    buyOrderOk := fun _ => true
    journalBuyOk := fun s => if s = "AAA" then false else true
    exitPrice := fun _ => Except.error ()
    sellOrderOk := fun _ => true
    journalSellOk := fun _ => true
    excludeStore := none }

/-- Concrete cycle: balance 50, candidate priced 5, every journal append
raises while order placement succeeds. -/
def envJournalFail2 : CycleEnv :=
  { now := 36000
    marginsNet := Except.ok (some 50)
    entryPrice := fun s => if s = "XYZ" then Except.ok 5 else Except.error ()
    buyOrderOk := fun _ => true
    journalBuyOk := fun _ => false
    exitPrice := fun _ => Except.error ()
    sellOrderOk := fun _ => true
    journalSellOk := fun _ => true
    excludeStore := some (some []) }

/-- First cycle of the staleness scenario: the quote fetch fails, and the
exclusion store still holds the empty list. -/
def envStale1 : CycleEnv :=
  { now := 36000
    marginsNet := Except.ok (some 100)
    entryPrice := fun _ => Except.error ()
    buyOrderOk := fun _ => true
    journalBuyOk := fun _ => true
    exitPrice := fun _ => Except.error ()
    sellOrderOk := fun _ => true
    journalSellOk := fun _ => true
    excludeStore := some (some []) }

/-- Second cycle of the staleness scenario: the external control interface has
meanwhile written `"AAA"` into the exclusion store. -/
def envStale2 : CycleEnv :=
  { now := 36000
    marginsNet := Except.ok (some 100)
    entryPrice := fun s => if s = "AAA" then Except.ok 10 else Except.error ()
    buyOrderOk := fun _ => true
    journalBuyOk := fun _ => true
    exitPrice := fun _ => Except.error ()
    sellOrderOk := fun _ => true
    journalSellOk := fun _ => true
    excludeStore := some (some ["AAA"]) }

/-- Concrete cycle whose balance query raises. -/
def envMarginsFail : CycleEnv :=
  { now := 36000
    marginsNet := Except.error ()
    entryPrice := fun _ => Except.error ()
    buyOrderOk := fun _ => true
    journalBuyOk := fun _ => true
    exitPrice := fun _ => Except.error ()
    sellOrderOk := fun _ => true
    journalSellOk := fun _ => true
    excludeStore := none }

/-- C6: with wallet 1000 and candidates priced 400 then 700, the first buys
`⌊1000/400⌋ = 2` shares for 800 leaving 200, and the second — now
unaffordable — is skipped within the same cycle. -/
theorem sequential_capital_allocation_example :
    ["AAA", "BBB"].foldl (entryStep envC6 []) ([], 1000, []) =
        ([("AAA", infoC6)], 200,
          [Action.buy "AAA" 2 true, Action.journal "BUY" "AAA" 2 400]) ∧
      runCycle envC6 ["AAA", "BBB"] [] [] =
        ([("AAA", infoC6)],
          [Action.buy "AAA" 2 true, Action.journal "BUY" "AAA" 2 400]) := by
  constructor <;>
    norm_num [runCycle, inWindow, marketOpenSec, marketCloseSec,
      walletFromMargins, entryStep, entryOne, exitStep, exitOne, shouldExit,
      lookupB, envC6, infoC6, PROFIT_TARGET, STOP_LOSS, (by decide : ("AAA" : String) ≠ "BBB"), (by decide : ("BBB" : String) ≠ "AAA")]

/-- C1 (counterexample): in `envSellFail` the SELL placement for `"AAA"` fails
(the trace records the failed attempt) and yet the position is removed from the
Position Book within the same cycle. -/
theorem sell_failure_still_removes_cex :
    (runCycle envSellFail ["AAA"] [] []).1 = [] ∧
      Action.sell "AAA" 10 false ∈ (runCycle envSellFail ["AAA"] [] []).2 := by
  norm_num [runCycle, inWindow, marketOpenSec, marketCloseSec, forcedExitCutoff,
    walletFromMargins, entryStep, entryOne, exitStep, exitOne, shouldExit,
    removeKey, lookupB, envSellFail, PROFIT_TARGET, STOP_LOSS]

/-- C2 (counterexample): in `envJournalFail` the journal append for `"AAA"`
fails after its BUY was placed, yet the cycle completes and goes on to place
the BUY for `"BBB"`; the error did not propagate out of the cycle. -/
theorem journal_failure_is_caught_cex :
    lookupB (runCycle envJournalFail ["AAA", "BBB"] [] []).1 "AAA" = none ∧
      Action.buy "AAA" 10 true ∈
        (runCycle envJournalFail ["AAA", "BBB"] [] []).2 ∧
      Action.buy "BBB" 10 true ∈
        (runCycle envJournalFail ["AAA", "BBB"] [] []).2 := by
  norm_num [runCycle, inWindow, marketOpenSec, marketCloseSec,
    walletFromMargins, entryStep, entryOne, exitStep, exitOne, shouldExit,
    lookupB, envJournalFail, PROFIT_TARGET, STOP_LOSS, (by decide : ("AAA" : String) ≠ "BBB"), (by decide : ("BBB" : String) ≠ "AAA")]

/-- C3 (counterexample): `"AAA"` sits in the exclusion store during the second
cycle (the control interface added it after engine start), yet the engine still
places a BUY for it in that cycle: the store is not re-read per cycle. -/
theorem exclusion_added_midrun_still_bought_cex :
    "AAA" ∈ load_excluded_stocks envStale2.excludeStore ∧
      Action.buy "AAA" 10 true ∈
        (run_trading_loop (some (some ["AAA"])) (some (some []))
          [envStale1, envStale2]).2 := by
  constructor
  · decide
  · have hp : load_predictions (some (some ["AAA"])) = ["AAA"] := by decide
    have he : load_excluded_stocks (some (some ([] : List String))) = [] := by
      decide
    unfold run_trading_loop
    rw [hp, he]
    norm_num [runEngine, engineStep, runCycle, inWindow, marketOpenSec,
      marketCloseSec, walletFromMargins, entryStep, entryOne, exitStep, exitOne,
      shouldExit, lookupB, envStale1, envStale2, PROFIT_TARGET, STOP_LOSS]

/-- C4 (counterexample): in `envJournalFail2` the BUY placement for `"XYZ"`
reports success (the trace records it) but no Position is inserted, because the
subsequent journal append failed. -/
theorem buy_success_without_position_cex :
    Action.buy "XYZ" 10 true ∈ (runCycle envJournalFail2 ["XYZ"] [] []).2 ∧
      (runCycle envJournalFail2 ["XYZ"] [] []).1 = [] := by
  norm_num [runCycle, inWindow, marketOpenSec, marketCloseSec,
    walletFromMargins, entryStep, entryOne, exitStep, exitOne, shouldExit,
    lookupB, envJournalFail2, PROFIT_TARGET, STOP_LOSS]

/-- Witness for `sell_iff_target_stop_or_cutoff` at a concrete reachable
position. -/
theorem sell_iff_target_stop_or_cutoff_witness :
    ("AAA", infoC6) ∈ (runEngine ["AAA", "BBB"] [] [envC6]).1 ∧
      ((∃ ok, Action.sell "AAA" infoC6.quantity ok ∈
            (exitOne envC6 [] ("AAA", infoC6)).2) ↔
        ∃ price, envC6.exitPrice "AAA" = Except.ok price ∧
          (infoC6.buy_price * (1 + PROFIT_TARGET) ≤ price ∨
            price ≤ infoC6.buy_price * (1 - STOP_LOSS) ∨
            forcedExitCutoff ≤ envC6.now)) := by
  have hmem : ("AAA", infoC6) ∈ (runEngine ["AAA", "BBB"] [] [envC6]).1 := by
    norm_num [runEngine, engineStep, runCycle, inWindow, marketOpenSec,
      marketCloseSec, walletFromMargins, entryStep, entryOne, exitStep, exitOne,
      shouldExit, lookupB, envC6, infoC6, PROFIT_TARGET, STOP_LOSS, (by decide : ("AAA" : String) ≠ "BBB"), (by decide : ("BBB" : String) ≠ "AAA")]
  exact ⟨hmem,
    sell_iff_target_stop_or_cutoff ["AAA", "BBB"] [] [envC6] "AAA" infoC6 hmem
      envC6 []⟩

/-- Witness for `quantity_floor_sizing` at a concrete input. -/
theorem quantity_floor_sizing_witness :
    ((400 : ℚ) ≤ 1000 ∧ (0 : ℚ) < 400) ∧
      (1 ≤ ⌊(1000 : ℚ) / 400⌋ ∧
        ∃ rest, (entryOne envC6 [] [] 1000 "AAA").2.2 =
          Action.buy "AAA" ⌊(1000 : ℚ) / 400⌋ (envC6.buyOrderOk "AAA") ::
            rest) := by
  refine ⟨⟨by norm_num, by norm_num⟩, ?_⟩
  exact quantity_floor_sizing envC6 [] [] 1000 400 "AAA" (by simp) rfl rfl
    (by norm_num) (by norm_num)

/-- Witness for `excluded_symbol_never_entered` at a concrete run. -/
theorem excluded_symbol_never_entered_witness :
    "AAA" ∈ ["AAA"] ∧
      lookupB (runEngine ["AAA"] ["AAA"] [envC6]).1 "AAA" = none ∧
      ∀ q ok, Action.buy "AAA" q ok ∉ (runEngine ["AAA"] ["AAA"] [envC6]).2 := by
  have h := excluded_symbol_never_entered ["AAA"] ["AAA"] [envC6] "AAA"
    (by decide)
  exact ⟨by decide, h.1, h.2⟩

/-- Witness for `at_most_one_position_per_symbol` at a concrete run and a
concrete already-open symbol. -/
theorem at_most_one_position_per_symbol_witness :
    (keysOf (runEngine ["AAA", "BBB"] [] [envC6]).1).Nodup ∧
      entryOne envC6 [] [("AAA", infoC6)] 1000 "AAA" =
        ([("AAA", infoC6)], 1000, []) := by
  have h := at_most_one_position_per_symbol ["AAA", "BBB"] [] [envC6]
  exact ⟨h.1, h.2 envC6 [] [("AAA", infoC6)] 1000 "AAA" (by decide)⟩

/-- Witness for `margins_failure_zero_wallet` at a concrete cycle. -/
theorem margins_failure_zero_wallet_witness :
    envMarginsFail.marginsNet = Except.error () ∧
      inWindow envMarginsFail.now = true ∧
      runCycle envMarginsFail ["AAA"] [] [] =
        ([] : Book).foldl (exitStep envMarginsFail) ([], []) := by
  refine ⟨rfl, by decide, ?_⟩
  exact margins_failure_zero_wallet.2 envMarginsFail ["AAA"] [] [] rfl
    (by decide)

/-- Witness for `exit_removes_position_regardless` at a concrete input. -/
theorem exit_removes_position_regardless_witness :
    envSellFail.exitPrice "AAA" = Except.ok 100 ∧
      shouldExit infoSell 100 envSellFail.now = true ∧
      (exitOne envSellFail [("AAA", infoSell)] ("AAA", infoSell)).1 =
        removeKey [("AAA", infoSell)] "AAA" ∧
      (envSellFail.sellOrderOk "AAA" = false →
        (exitOne envSellFail [("AAA", infoSell)] ("AAA", infoSell)).2 =
          [Action.sell "AAA" infoSell.quantity false]) := by
  have h := exit_removes_position_regardless envSellFail [("AAA", infoSell)]
    "AAA" infoSell 100 rfl (by decide)
  exact ⟨rfl, by decide, h.1, h.2⟩

/-- Witness for `journal_failure_caught_cycle_continues` at a concrete input. -/
theorem journal_failure_caught_cycle_continues_witness :
    envJournalFail.journalBuyOk "AAA" = false ∧
      (entryOne envJournalFail [] [] 100 "AAA").1 = [] ∧
      (entryOne envJournalFail [] [] 100 "AAA").2.1 = 100 ∧
      ["AAA", "BBB"].foldl (entryStep envJournalFail []) ([], 100, []) =
        ["BBB"].foldl (entryStep envJournalFail [])
          ([], 100, [] ++ (entryOne envJournalFail [] [] 100 "AAA").2.2) := by
  have h := journal_failure_caught_cycle_continues envJournalFail [] [] 100 []
    "AAA" ["BBB"] (by decide)
  exact ⟨by decide, h.1, h.2.1, h.2.2⟩

/-- Witness for `position_insert_iff_buy_and_journal` at a concrete input. -/
theorem position_insert_iff_buy_and_journal_witness :
    (envJournalFail2.buyOrderOk "XYZ" = false ∨
        envJournalFail2.journalBuyOk "XYZ" = false) ∧
      (entryOne envJournalFail2 [] [] 50 "XYZ").1 = [] ∧
      (entryOne envJournalFail2 [] [] 50 "XYZ").2.1 = 50 := by
  have h := (position_insert_iff_buy_and_journal envJournalFail2 [] [] 50
    "XYZ").1 (Or.inr rfl)
  exact ⟨Or.inr rfl, h.1, h.2⟩

end TB
